import Mathlib

/-!
# Verification of the payloops/observability core

A shallow embedding, in Lean 4, of the correlation-context store and the
context-aware log emitter of the `payloops/observability` package
(`src/lib/context.ts` and `src/lib/logger.ts`), together with proofs of the
behavioural properties claimed for them.

JavaScript objects are modelled as association lists with insert-or-update
construction (mirroring object-literal / spread evaluation order: a later
property overwrites an earlier one in place).  Field values are modelled by
an inductive `JValue` type that includes a `vbig` (BigInt) constructor on
which `JSON.stringify` raises, and a `vundef` (undefined) constructor that
serialization of objects skips.  Fallible JavaScript code is embedded in
`Except String`; sources of nondeterminism (the clock, the random generator
of `nanoid`, the active span, the ambient correlation store and the
OpenTelemetry runtime) are passed as explicit parameters.
-/

set_option autoImplicit false

universe u
/-! ## JavaScript values and objects -/

/-- A JavaScript field value: strings, numbers, booleans, `null`,
`undefined`, BigInt (on which `JSON.stringify` throws), and nested
objects. -/
inductive JValue where
  | vstr (s : String)
  | vnum (n : Int)
  | vbool (b : Bool)
  | vnull
  | vundef
  | vbig (n : Int)
  | vobj (fields : List (String × JValue))

/-- `v !== undefined`, used by the pretty console formatter's filter. -/
def JValue.isUndef : JValue → Bool
  | .vundef => true
  | _ => false

/-- A JavaScript object, as an association list of properties in insertion
order.  Objects are built with `jsInsert`, which mirrors property
assignment: overwriting a key keeps its original position. -/
abbrev JsObj (α : Type u) : Type u := List (String × α)

/-- Property assignment `o[k] = v`: update in place if the key exists,
otherwise append. -/
def jsInsert {α : Type u} (r : JsObj α) (k : String) (v : α) : JsObj α :=
  if r.any (fun p => p.1 = k) then
    r.map (fun p => if p.1 = k then (k, v) else p)
  else
    r ++ [(k, v)]

/-- Object spread `\x7b ...a, ...b \x7d` evaluated left to right: every
property of `b` is assigned into `a`. -/
def jsSpread {α : Type u} (a b : JsObj α) : JsObj α :=
  b.foldl (fun r p => jsInsert r p.1 p.2) a

/-- Property read `o[k]` (first matching entry; entries built with
`jsInsert` have unique keys). -/
def jsGet {α : Type u} (r : JsObj α) (k : String) : Option α :=
  (r.find? (fun p => p.1 = k)).map (fun p => p.2)

/-- `k in o`. -/
def jsHas {α : Type u} (r : JsObj α) (k : String) : Bool :=
  r.any (fun p => p.1 = k)

/-- Well-formedness of an object representation: keys are pairwise
distinct, as they are for every genuine JavaScript object. -/
def JsObj.WF {α : Type u} (r : JsObj α) : Prop :=
  (r.map (fun p => p.1)).Nodup

/-! ## `src/lib/context.ts` — the correlation store and header codec -/

/-- `CorrelationContext` from `context.ts`: a correlation record. -/
structure CorrelationContext where
  correlationId : String
  merchantId : Option String := none
  orderId : Option String := none
  workflowId : Option String := none
deriving Repr, DecidableEq

/-- A synchronous computation running against the `AsyncLocalStorage`
correlation store: it reads and writes the ambient record (`Option
CorrelationContext`, `none` when no scope installed one) and either
returns a value or throws. -/
def CtxM (α : Type) : Type :=
  Option CorrelationContext → Except String α × Option CorrelationContext

/-- Return a value, leaving the store untouched. -/
def CtxM.pure {α : Type} (a : α) : CtxM α := fun s => (.ok a, s)

/-- Throw a JavaScript error. -/
def CtxM.throw {α : Type} (e : String) : CtxM α := fun s => (.error e, s)

/-- Sequencing: run `m`; on success continue with `f`, on an uncaught
throw propagate it. -/
def CtxM.bind {α β : Type} (m : CtxM α) (f : α → CtxM β) : CtxM β := fun s =>
  match m s with
  | (.ok a, s') => f a s'
  | (.error e, s') => (.error e, s')

/-- `getCorrelationContext()`: `correlationStorage.getStore()`. -/
def getCorrelationContext : CtxM (Option CorrelationContext) := fun s => (.ok s, s)

/-- `withCorrelationContext(ctx, fn)`: `correlationStorage.run(ctx, fn)`.
The store's `run` installs `ctx` for the dynamic extent of `fn`, restores
the previously ambient record when `fn` finishes (normally or by
throwing), and passes `fn`'s outcome — value or error — through
unchanged. -/
def withCorrelationContext {α : Type} (ctx : CorrelationContext) (fn : CtxM α) : CtxM α :=
  fun prev => ((fn (some ctx)).1, prev)

-- Standard headers for correlation
def CORRELATION_ID_HEADER : String := "X-Correlation-ID"
def REQUEST_ID_HEADER : String := "X-Request-ID"

/-- `s.toLowerCase()` (ASCII). -/
def jsToLower (s : String) : String := String.mk (s.toList.map Char.toLower)

/-- `s.toUpperCase()` (ASCII). -/
def jsToUpper (s : String) : String := String.mk (s.toList.map Char.toUpper)

/-- The 64-character URL-safe alphabet used by `nanoid`. -/
def urlAlphabet : String :=
  "ABCDEFGHIJKLMNOPQRSTUVWXYZabcdefghijklmnopqrstuvwxyz0123456789_-"

/-- `nanoid(size)`: `size` characters drawn from the URL-safe alphabet;
the random byte stream is passed in as `randomAt`. -/
def nanoid (randomAt : Nat → Nat) (size : Nat) : String :=
  String.mk ((List.range size).map
    (fun i => urlAlphabet.toList.getD (randomAt i % 64) 'u'))

/-- `generateCorrelationId()`: `nanoid(21)`. -/
def generateCorrelationId (randomAt : Nat → Nat) : String :=
  nanoid randomAt 21

/-- Inbound header maps: header name to `string | undefined`. -/
abbrev Headers : Type := JsObj (Option String)

/-- The key-lowercasing loop at the top of `extractCorrelationId`:
`normalizedHeaders[key.toLowerCase()] = value` for each entry in order. -/
def normalizeHeaders (headers : Headers) : Headers :=
  headers.foldl (fun acc p => jsInsert acc (jsToLower p.1) p.2) []

/-- One step of the `a || b` chain: the value of `normalized[k]` if it is
truthy (present, defined, and not the empty string), otherwise nothing. -/
def truthyLookup (normalized : Headers) (k : String) : Option String :=
  match jsGet normalized k with
  | some (some s) => if s = "" then none else some s
  | _ => none

/-- `extractCorrelationId(headers)`: case-insensitive lookup of
`X-Correlation-ID`, then `X-Request-ID`, then a fresh `nanoid`. -/
def extractCorrelationId (randomAt : Nat → Nat) (headers : Headers) : String :=
  let normalizedHeaders := normalizeHeaders headers
  match truthyLookup normalizedHeaders (jsToLower CORRELATION_ID_HEADER) with
  | some v => v
  | none =>
    match truthyLookup normalizedHeaders (jsToLower REQUEST_ID_HEADER) with
    | some v => v
    | none => generateCorrelationId randomAt

/-! ## JSON serialization (`JSON.stringify`) -/

/-- Escape one character for a JSON string literal. -/
def jsonEscapeChar (c : Char) : String :=
  if c = '"' then "\\\""
  else if c = '\\' then "\\\\"
  else if c = '\n' then "\\n"
  else if c = '\t' then "\\t"
  else if c = '\r' then "\\r"
  else String.singleton c

/-- A JSON string literal. -/
def jsonQuote (s : String) : String :=
  "\"" ++ String.join (s.toList.map jsonEscapeChar) ++ "\""

mutual

/-- `JSON.stringify`: renders strings, numbers, booleans, `null` and
objects; skips `undefined`-valued properties; throws a `TypeError` on a
BigInt. -/
def jsonStringify : JValue → Except String String
  | .vstr s => .ok (jsonQuote s)
  | .vnum n => .ok (toString n)
  | .vbool b => .ok (if b then "true" else "false")
  | .vnull => .ok "null"
  | .vundef => .ok "undefined"
  | .vbig _ => .error "TypeError: Do not know how to serialize a BigInt"
  | .vobj fields => do
    let parts ← jsonStringifyFields fields
    .ok ("\x7b" ++ String.intercalate "," parts ++ "\x7d")

/-- Properties of an object, in order; `undefined` values are omitted. -/
def jsonStringifyFields : List (String × JValue) → Except String (List String)
  | [] => .ok []
  | (k, v) :: rest =>
    if v.isUndef then jsonStringifyFields rest
    else do
      let s ← jsonStringify v
      let restS ← jsonStringifyFields rest
      .ok ((jsonQuote k ++ ":" ++ s) :: restS)

end

mutual

/-- A value `JSON.stringify` accepts: no BigInt anywhere inside. -/
def JValue.serializable : JValue → Bool
  | .vbig _ => false
  | .vobj fields => serializableFields fields
  | _ => true

/-- Every value of the object is serializable. -/
def serializableFields : List (String × JValue) → Bool
  | [] => true
  | (_, v) :: rest => v.serializable && serializableFields rest

end

/-! ## `src/lib/logger.ts` — the context-aware log emitter -/

-- ANSI colors for pretty console output
def colorReset : String := "\x1b[0m"
def colorDim : String := "\x1b[2m"
def colorRed : String := "\x1b[31m"
def colorGreen : String := "\x1b[32m"
def colorYellow : String := "\x1b[33m"
def colorBlue : String := "\x1b[34m"
def colorMagenta : String := "\x1b[35m"
def colorCyan : String := "\x1b[36m"

/-- One row of the `levelConfig` table: OpenTelemetry severity number,
console color, label, and filtering priority. -/
structure LevelConfig where
  severity : Nat
  color : String
  label : String
  priority : Nat
deriving Repr, DecidableEq

/-- The `levelConfig` table.  Severity numbers are the OpenTelemetry
`SeverityNumber` values (TRACE = 1, DEBUG = 5, INFO = 9, WARN = 13,
ERROR = 17, FATAL = 21). -/
def levelConfig : String → Option LevelConfig
  | "trace" => some ⟨1, colorDim, "TRACE", 0⟩
  | "debug" => some ⟨5, colorBlue, "DEBUG", 1⟩
  | "info" => some ⟨9, colorGreen, "INFO", 2⟩
  | "warn" => some ⟨13, colorYellow, "WARN", 3⟩
  | "error" => some ⟨17, colorRed, "ERROR", 4⟩
  | "fatal" => some ⟨21, colorMagenta, "FATAL", 5⟩
  | _ => none

/-- The module-level environment-derived configuration of `logger.ts`:
`NODE_ENV`, `OTEL_SERVICE_NAME` and `LOG_LEVEL` with their defaults. -/
structure Config where
  NODE_ENV : String := "development"
  SERVICE_NAME : String := "loop"
  LOG_LEVEL : String := "debug"
deriving Repr, DecidableEq

/-- The default of `LOG_LEVEL` when the environment variable is unset. -/
def defaultLogLevel (nodeEnv : String) : String :=
  if nodeEnv = "production" then "info" else "debug"

/-- `currentLevelPriority`: `levelConfig[LOG_LEVEL]?.priority ?? 2`. -/
def currentLevelPriority (cfg : Config) : Nat :=
  ((levelConfig cfg.LOG_LEVEL).map (fun c => c.priority)).getD 2

/-- The active tracing span's context, as read from
`trace.getActiveSpan()`. -/
structure SpanContext where
  traceId : String
  spanId : String
  traceFlags : Nat
deriving Repr, DecidableEq

/-- The ambient inputs a log call reads: the active span, the ambient
correlation record (what `getCorrelationContext()` returns at emission
time) and the current ISO timestamp. -/
structure Ambient where
  activeSpan : Option SpanContext := none
  correlationCtx : Option CorrelationContext := none
  nowIso : String := "1970-01-01T00:00:00.000Z"
deriving Repr, DecidableEq

/-- JavaScript truthiness of a `string | undefined`. -/
def jsTruthyStr : Option String → Bool
  | some s => !(s = "")
  | none => false

/-- `getContext()`: trace and correlation enrichment fields. -/
def getContext (amb : Ambient) : JsObj JValue :=
  let ctx : JsObj JValue := []
  let ctx := match amb.activeSpan with
    | some span =>
      jsInsert (jsInsert ctx "trace_id" (.vstr span.traceId)) "span_id" (.vstr span.spanId)
    | none => ctx
  match amb.correlationCtx with
  | some c =>
    let ctx := jsInsert ctx "correlation_id" (.vstr c.correlationId)
    let ctx := if jsTruthyStr c.merchantId then
        jsInsert ctx "merchant_id" (.vstr (c.merchantId.getD "")) else ctx
    let ctx := if jsTruthyStr c.orderId then
        jsInsert ctx "order_id" (.vstr (c.orderId.getD "")) else ctx
    if jsTruthyStr c.workflowId then
      jsInsert ctx "workflow_id" (.vstr (c.workflowId.getD "")) else ctx
  | none => ctx

/-- The `\x7b service: SERVICE_NAME, env: NODE_ENV \x7d` object literal, used
both as the base logger's bindings and under the telemetry attributes. -/
def baseBindings (cfg : Config) : JsObj JValue :=
  [("service", JValue.vstr cfg.SERVICE_NAME), ("env", JValue.vstr cfg.NODE_ENV)]

/-- The OpenTelemetry logs collaborator, as an oracle for the three
steps of the telemetry sink path, each of which may throw:
`logs.getLoggerProvider()` (returning the provider's constructor name),
`provider.getLogger(name)` and `otelLogger.emit(record)`. -/
structure OtelRuntime where
  getLoggerProvider : Except String String
  getLogger : Except String Unit
  emit : Except String Unit

/-- The record handed to `otelLogger.emit`. -/
structure OtelEmission where
  severityNumber : Nat
  severityText : String
  body : String
  attributes : JsObj JValue
  spanCtx : Option SpanContext

/-- The body of `emitToOtel` before its `try/catch`: provider lookup,
proxy-provider detection, logger acquisition, record construction and
emission. -/
def emitToOtelCore (cfg : Config) (rt : OtelRuntime) (amb : Ambient)
    (level message : String) (attributes : JsObj JValue) :
    Except String (Option OtelEmission) :=
  match rt.getLoggerProvider with
  | .error err => .error err
  | .ok providerName =>
    if providerName = "ProxyLoggerProvider" then
      .ok none
    else
      match rt.getLogger with
      | .error err => .error err
      | .ok _ =>
        let config := levelConfig level
        let e : OtelEmission := {
          severityNumber := (config.map (fun c => c.severity)).getD 9
          severityText := (config.map (fun c => c.label)).getD "INFO"
          body := message
          attributes := jsSpread (baseBindings cfg) attributes
          spanCtx := amb.activeSpan }
        match rt.emit with
        | .error err => .error err
        | .ok _ => .ok (some e)

/-- `emitToOtel`: the telemetry sink.  The surrounding `try/catch`
swallows every fault, so the function is total; it returns the record
delivered to the collaborator, or `none` when the sink was skipped or
faulted. -/
def emitToOtel (cfg : Config) (rt : OtelRuntime) (amb : Ambient)
    (level message : String) (attributes : JsObj JValue) : Option OtelEmission :=
  match emitToOtelCore cfg rt amb level message attributes with
  | .ok o => o
  | .error _ => none

/-- `label.padEnd(5)`. -/
def padEnd (s : String) (n : Nat) : String :=
  s ++ String.mk (List.replicate (n - s.length) ' ')

/-- `s.split('T')` at the character level. -/
def splitOnChar (c : Char) (l : List Char) : List (List Char) :=
  l.foldr (fun x acc => match acc with
    | [] => if x = c then [[], []] else [[x]]
    | cur :: rest => if x = c then [] :: cur :: rest else (x :: cur) :: rest) [[]]

/-- `timestamp.split('T')`. -/
def jsSplitT (s : String) : List String := (splitOnChar 'T' s.toList).map String.mk

/-- `timestamp.split('T')[1].slice(0, -1)`: throws when the timestamp
has no `'T'` (never the case for `toISOString` output). -/
def isoTimePart (ts : String) : Except String String :=
  match (jsSplitT ts).get? 1 with
  | some t => .ok (t.dropRight 1)
  | none => .error "TypeError: Cannot read properties of undefined (reading 'slice')"

/-- `formatConsole`: one-line JSON in production, a colorized line with
an indented field dump otherwise.  Serialization faults propagate. -/
def formatConsole (cfg : Config) (nowIso : String) (level message : String)
    (data : JsObj JValue) : Except String String :=
  let config := levelConfig level
  let color := (config.map (fun c => c.color)).getD colorReset
  let label := (config.map (fun c => c.label)).getD (jsToUpper level)
  if cfg.NODE_ENV = "production" then
    jsonStringify (.vobj (jsSpread
      [("time", JValue.vstr nowIso), ("level", JValue.vstr label),
       ("msg", JValue.vstr message), ("service", JValue.vstr cfg.SERVICE_NAME),
       ("env", JValue.vstr cfg.NODE_ENV)] data))
  else do
    let t ← isoTimePart nowIso
    let timeStr := colorDim ++ "[" ++ t ++ "]" ++ colorReset
    let levelStr := color ++ padEnd label 5 ++ colorReset
    let msgStr := color ++ message ++ colorReset
    let dataEntries := data.filter (fun p => !(p.2.isUndef))
    let dataStr ←
      if dataEntries.length > 0 then do
        let lines ← dataEntries.mapM (fun p =>
          (jsonStringify p.2).map (fun s =>
            "    " ++ colorMagenta ++ p.1 ++ colorReset ++ ": " ++ s))
        Except.ok ("\n" ++ String.intercalate "\n" lines)
      else
        Except.ok ""
    .ok (timeStr ++ " " ++ levelStr ++ ": " ++ msgStr ++ dataStr)

/-- The overloaded second argument of `log`: a bare message string or a
structured-fields object. -/
inductive MsgOrData where
  | str (s : String)
  | obj (d : JsObj JValue)

/-- Call-signature disambiguation: the message of a log call. -/
def logMessage : MsgOrData → Option String → String
  | .str m, _ => m
  | .obj _, msg => msg.getD ""

/-- Call-signature disambiguation: the structured fields of a log call. -/
def logData : MsgOrData → JsObj JValue
  | .str _ => []
  | .obj d => d

/-- The effects of one `log` call: the line printed by `console.log`
(if any) and the record delivered to the telemetry sink (if any). -/
structure LogEffects where
  console : Option String
  otel : Option OtelEmission

/-- The core `log` function: threshold check, argument disambiguation,
context enrichment, console output, telemetry emission. -/
def log (cfg : Config) (rt : OtelRuntime) (amb : Ambient) (level : String)
    (msgOrData : MsgOrData) (msg : Option String) : Except String LogEffects :=
  match levelConfig level with
  | none => .ok ⟨none, none⟩
  | some config =>
    if config.priority < currentLevelPriority cfg then
      .ok ⟨none, none⟩
    else
      let message := logMessage msgOrData msg
      let data := logData msgOrData
      let context := getContext amb
      let enrichedData := jsSpread data context
      match formatConsole cfg amb.nowIso level message enrichedData with
      | .error e => .error e
      | .ok c => .ok ⟨some c, emitToOtel cfg rt amb level message enrichedData⟩

/-- A `Logger` handle: the captured default bindings. -/
structure Logger where
  bindings : JsObj JValue

/-- `createLogger(bindings)`. -/
def createLogger (bindings : JsObj JValue := []) : Logger := ⟨bindings⟩

/-- The `boundLog` closure inside `createLogger`: merges the handle's
bindings under the call-site fields and forwards to `log`. -/
def Logger.boundLog (cfg : Config) (rt : OtelRuntime) (amb : Ambient) (L : Logger)
    (level : String) (msgOrData : MsgOrData) (msg : Option String) :
    Except String LogEffects :=
  match msgOrData with
  | .str m => log cfg rt amb level (.obj (jsSpread [] L.bindings)) (some m)
  | .obj d => log cfg rt amb level (.obj (jsSpread (jsSpread [] L.bindings) d)) msg

/-- `child(childBindings)`: a new handle over the merged bindings
`\x7b ...bindings, ...childBindings \x7d`; the parent is untouched. -/
def Logger.child (L : Logger) (childBindings : JsObj JValue) : Logger :=
  createLogger (jsSpread (jsSpread [] L.bindings) childBindings)

/-- The base logger instance: `createLogger(\x7b service, env \x7d)`. -/
def logger (cfg : Config) : Logger :=
  createLogger (baseBindings cfg)

/-- `logger.info(...)` (the other five per-level methods forward to
`boundLog` identically, with their own level string). -/
def Logger.info (cfg : Config) (rt : OtelRuntime) (amb : Ambient) (L : Logger)
    (msgOrData : MsgOrData) (msg : Option String) : Except String LogEffects :=
  Logger.boundLog cfg rt amb L "info" msgOrData msg

/-! ### Object lemmas -/

theorem jsInsert_cons_ne {α : Type u} (p : String × α) (r : JsObj α) (k : String) (v : α)
    (h : p.1 ≠ k) : jsInsert (p :: r) k v = p :: jsInsert r k v := by
  unfold jsInsert
  have hp : (decide (p.1 = k)) = false := by simp [h]
  by_cases hr : r.any (fun q => q.1 = k)
  · simp [List.any_cons, hp, hr, h]
  · simp [List.any_cons, hp, hr]

theorem jsInsert_cons_eq {α : Type u} (p : String × α) (r : JsObj α) (v : α) :
    jsInsert (p :: r) p.1 v
      = (p.1, v) :: r.map (fun q => if q.1 = p.1 then (p.1, v) else q) := by
  unfold jsInsert
  simp [List.any_cons]

theorem jsGet_cons {α : Type u} (p : String × α) (r : JsObj α) (k : String) :
    jsGet (p :: r) k = if p.1 = k then some p.2 else jsGet r k := by
  by_cases h : p.1 = k <;> simp [jsGet, List.find?_cons, h]

theorem jsGet_nil {α : Type u} (k : String) : jsGet ([] : JsObj α) k = none := rfl

/-- Replacing the value stored at `k'` does not change reads of other keys. -/
theorem find_map_replace {α : Type u} (r : JsObj α) (k k' : String) (v : α) (hne : k ≠ k') :
    List.find? (fun p => p.1 = k) (r.map (fun q => if q.1 = k' then (k', v) else q))
      = List.find? (fun p => p.1 = k) r := by
  induction r with
  | nil => rfl
  | cons q r ih =>
    by_cases hq : q.1 = k'
    · have h1 : (decide ((k', v).1 = k)) = false := by
        simp; exact fun hc => hne hc.symm
      have h2 : (decide (q.1 = k)) = false := by
        simp [hq]; exact fun hc => hne hc.symm
      simp only [List.map_cons, if_pos hq, List.find?_cons, h1, h2, cond_false]
      exact ih
    · simp only [List.map_cons, if_neg hq, List.find?_cons]
      cases hqk : (decide (q.1 = k)) <;> simp [ih]

theorem jsGet_jsInsert {α : Type u} (r : JsObj α) (k k' : String) (v : α) :
    jsGet (jsInsert r k' v) k = if k = k' then some v else jsGet r k := by
  induction r with
  | nil =>
    by_cases h : k = k' <;>
      simp [jsInsert, jsGet, List.find?, h, eq_comm]
  | cons p r ih =>
    by_cases hp : p.1 = k'
    · subst hp
      rw [jsInsert_cons_eq p r v]
      by_cases hk : k = p.1
      · subst hk
        simp [jsGet_cons]
      · have hne1 : ¬ p.1 = k := fun hc => hk hc.symm
        rw [if_neg hk, jsGet_cons, jsGet_cons]
        simp only [hne1, if_false]
        exact congrArg (Option.map _) (find_map_replace r k p.1 v hk)
    · rw [jsInsert_cons_ne p r k' v hp, jsGet_cons, jsGet_cons, ih]
      by_cases hk : k = k'
      · subst hk
        have : ¬ p.1 = k := fun hc => hp hc
        simp [this]
      · simp [hk]

theorem jsHas_eq_isSome_jsGet {α : Type u} (r : JsObj α) (k : String) :
    jsHas r k = (jsGet r k).isSome := by
  induction r with
  | nil => rfl
  | cons p r ih =>
    rw [jsGet_cons]
    by_cases h : p.1 = k
    · simp [jsHas, List.any_cons, h]
    · have ih' := ih
      simp only [jsHas, List.any_cons] at ih' ⊢
      simp [h, ih']

theorem jsGet_jsSpread {α : Type u} (a b : JsObj α) (hb : JsObj.WF b) (k : String) :
    jsGet (jsSpread a b) k = (jsGet b k).orElse (fun _ => jsGet a k) := by
  induction b generalizing a with
  | nil => simp [jsSpread, jsGet]
  | cons p b ih =>
    have hbwf : JsObj.WF b := by
      simpa [JsObj.WF, List.nodup_cons] using (List.nodup_cons.mp hb).2
    have hknotin : p.1 ∉ b.map (fun q => q.1) := (List.nodup_cons.mp hb).1
    have hstep : jsSpread a (p :: b) = jsSpread (jsInsert a p.1 p.2) b := by
      simp [jsSpread]
    rw [hstep, ih _ hbwf, jsGet_cons, jsGet_jsInsert]
    by_cases hk : k = p.1
    · have hbnone : jsGet b k = none := by
        have hfind : List.find? (fun q => q.1 = k) b = none := by
          rw [List.find?_eq_none]
          intro q hq hc
          have hqk : q.1 = k := by simpa using hc
          exact hknotin (List.mem_map.mpr ⟨q, hq, by rw [hqk, hk]⟩)
        unfold jsGet
        rw [hfind]
        rfl
      rw [if_pos hk, if_pos hk.symm, hbnone]
      rfl
    · have hne : ¬ p.1 = k := fun hc => hk hc.symm
      rw [if_neg hk, if_neg hne]

theorem jsHas_jsInsert {α : Type u} (r : JsObj α) (k k' : String) (v : α) :
    jsHas (jsInsert r k' v) k = (decide (k = k') || jsHas r k) := by
  rw [jsHas_eq_isSome_jsGet, jsHas_eq_isSome_jsGet, jsGet_jsInsert]
  by_cases hk : k = k' <;> simp [hk]

theorem jsHas_jsSpread {α : Type u} (a b : JsObj α) (k : String) :
    jsHas (jsSpread a b) k = (jsHas a k || jsHas b k) := by
  induction b generalizing a with
  | nil => simp [jsSpread, jsHas]
  | cons p b ih =>
    have hstep : jsSpread a (p :: b) = jsSpread (jsInsert a p.1 p.2) b := by
      simp [jsSpread]
    rw [hstep, ih, jsHas_jsInsert]
    have : jsHas (p :: b : JsObj α) k = (decide (p.1 = k) || jsHas b k) := by
      simp [jsHas, List.any_cons]
    rw [this]
    by_cases hk : k = p.1 <;> simp [hk, eq_comm]

theorem JsObj.WF.insert {α : Type u} {r : JsObj α} (h : JsObj.WF r) (k : String) (v : α) :
    JsObj.WF (jsInsert r k v) := by
  unfold jsInsert
  split
  · have : (r.map (fun p => if p.1 = k then (k, v) else p)).map (fun p => p.1)
        = r.map (fun p => p.1) := by
      rw [List.map_map]
      apply List.map_congr_left
      intro p _
      by_cases hp : p.1 = k <;> simp [hp]
    unfold JsObj.WF
    rw [this]; exact h
  · next hmem =>
    unfold JsObj.WF
    rw [List.map_append, List.nodup_append]
    refine ⟨h, by simp, ?_⟩
    intro x hx
    simp only [List.map_cons, List.map_nil, List.mem_singleton]
    intro hc
    subst hc
    rcases List.mem_map.mp hx with ⟨p, hp, hpk⟩
    exact absurd (List.any_eq_true.mpr ⟨p, hp, by simp [hpk]⟩) hmem

theorem JsObj.WF.spread {α : Type u} {a : JsObj α} (h : JsObj.WF a) (b : JsObj α) :
    JsObj.WF (jsSpread a b) := by
  induction b generalizing a with
  | nil => simpa [jsSpread]
  | cons p b ih =>
    have hstep : jsSpread a (p :: b) = jsSpread (jsInsert a p.1 p.2) b := by
      simp [jsSpread]
    rw [hstep]
    exact ih (h.insert p.1 p.2)

theorem JsObj.WF.nil {α : Type u} : JsObj.WF ([] : JsObj α) := by
  simp [JsObj.WF]

/-- Spreading into a fresh object (`\x7b ...b \x7d`) leaves a well-formed
object unchanged. -/
theorem jsSpread_nil_of_wf {α : Type u} (b : JsObj α) (hb : JsObj.WF b) :
    jsSpread ([] : JsObj α) b = b := by
  suffices h : ∀ a : JsObj α, (∀ k, jsHas a k → k ∉ b.map (fun p => p.1)) →
      jsSpread a b = a ++ b by
    simpa using h [] (by simp [jsHas])
  induction b with
  | nil => intro a _; simp [jsSpread]
  | cons p b ih =>
    intro a ha
    have hstep : jsSpread a (p :: b) = jsSpread (jsInsert a p.1 p.2) b := by
      simp [jsSpread]
    have hpnotina : ¬ jsHas a p.1 := by
      intro hc
      exact ha p.1 hc (by simp)
    have hins : jsInsert a p.1 p.2 = a ++ [p] := by
      unfold jsInsert
      have h0 : (a.any fun q => q.1 = p.1) = false := by
        rw [← Bool.not_eq_true]
        exact hpnotina
      rw [h0]
      simp
    have hwfb : JsObj.WF b := by
      simpa [JsObj.WF, List.nodup_cons] using (List.nodup_cons.mp hb).2
    have hpb : p.1 ∉ b.map (fun q => q.1) := (List.nodup_cons.mp hb).1
    rw [hstep, ih hwfb]
    · rw [hins]; simp
    · intro k hk
      rw [hins] at hk
      have : jsHas (a ++ [p]) k = (jsHas a k || jsHas [p] k) := by
        simp [jsHas, List.any_append]
      rw [this] at hk
      have hk' : jsHas a k = true ∨ jsHas [p] k = true := by
        simpa using hk
      rcases hk' with hk | hk
      · intro hc
        exact ha k hk (by simp [hc])
      · have : k = p.1 := by simpa [jsHas, eq_comm] using hk
        subst this
        exact hpb

mutual

theorem jsonStringify_ok_of_serializable (v : JValue) (h : v.serializable = true) :
    ∃ s, jsonStringify v = .ok s := by
  cases v with
  | vstr s => exact ⟨_, rfl⟩
  | vnum n => exact ⟨_, rfl⟩
  | vbool b => exact ⟨_, rfl⟩
  | vnull => exact ⟨_, rfl⟩
  | vundef => exact ⟨_, rfl⟩
  | vbig n => simp [JValue.serializable] at h
  | vobj fields =>
    have h' : serializableFields fields = true := by
      simpa [JValue.serializable] using h
    obtain ⟨parts, hp⟩ := jsonStringifyFields_ok_of_serializable fields h'
    refine ⟨"\x7b" ++ String.intercalate "," parts ++ "\x7d", ?_⟩
    simp only [jsonStringify, hp]
    rfl

theorem jsonStringifyFields_ok_of_serializable (l : List (String × JValue))
    (h : serializableFields l = true) :
    ∃ parts, jsonStringifyFields l = .ok parts := by
  cases l with
  | nil => exact ⟨_, rfl⟩
  | cons p rest =>
    have hv : p.2.serializable = true := by
      rcases p with ⟨k, v⟩
      simp [serializableFields, Bool.and_eq_true] at h
      exact h.1
    have hrest : serializableFields rest = true := by
      rcases p with ⟨k, v⟩
      simp [serializableFields, Bool.and_eq_true] at h
      exact h.2
    rcases p with ⟨k, v⟩
    obtain ⟨ps, hps⟩ := jsonStringifyFields_ok_of_serializable rest hrest
    by_cases hu : v.isUndef
    · refine ⟨ps, ?_⟩
      simp only [jsonStringifyFields]
      rw [if_pos hu]
      exact hps
    · obtain ⟨s, hs⟩ := jsonStringify_ok_of_serializable v hv
      refine ⟨(jsonQuote k ++ ":" ++ s) :: ps, ?_⟩
      simp only [jsonStringifyFields]
      rw [if_neg hu]
      simp only [hs, hps]
      rfl

end

/-! ## Claim theorems: correlation store and header codec -/

/-- C2: for every record `r`, function `fn` and pre-call ambient record
`prev`: inside `withCorrelationContext(r, fn)` the store reads exactly
`r` (first and third conjuncts; the third says a `getCorrelationContext`
at any point of the extent's top level sees `r`); the ambient record is
restored to `prev` after `fn` finishes, normally or by throwing (second,
fourth and fifth conjuncts); a throw from `fn` is re-raised unchanged
after the restoration (fourth conjunct); and a nested run shadows the
outer record only for its own extent (sixth conjunct). -/
theorem withCorrelationContext_spec {α : Type} (r : CorrelationContext) (fn : CtxM α)
    (prev : Option CorrelationContext) :
    (withCorrelationContext r getCorrelationContext prev = (.ok (some r), prev))
    ∧ ((withCorrelationContext r fn prev).2 = prev)
    ∧ (∀ g : Option CorrelationContext → CtxM α,
        withCorrelationContext r (CtxM.bind getCorrelationContext g) prev
          = withCorrelationContext r (g (some r)) prev)
    ∧ (∀ (e : String) (s' : Option CorrelationContext), fn (some r) = (.error e, s') →
        withCorrelationContext r fn prev = (.error e, prev))
    ∧ (∀ (a : α) (s' : Option CorrelationContext), fn (some r) = (.ok a, s') →
        withCorrelationContext r fn prev = (.ok a, prev))
    ∧ (∀ r₂ : CorrelationContext,
        withCorrelationContext r
          (CtxM.bind (withCorrelationContext r₂ getCorrelationContext)
            (fun inner => CtxM.bind getCorrelationContext
              (fun outer => CtxM.pure (inner, outer)))) prev
          = (.ok (some r₂, some r), prev)) := by
  refine ⟨rfl, rfl, fun g => rfl, ?_, ?_, fun r₂ => rfl⟩
  · intro e s' h
    simp [withCorrelationContext, h]
  · intro a s' h
    simp [withCorrelationContext, h]

theorem withCorrelationContext_spec_witness :
    withCorrelationContext ⟨"A", none, none, none⟩ (CtxM.throw "boom" : CtxM Nat) none
      = (.error "boom", none) :=
  (withCorrelationContext_spec ⟨"A", none, none, none⟩
      (CtxM.throw "boom" : CtxM Nat) none).2.2.2.1 "boom" (some ⟨"A", none, none, none⟩) rfl

/-- C7: `extractCorrelationId` looks headers up case-insensitively
(first conjunct, for an arbitrary casing of the correlation header);
returns the canonical correlation-id header's value when it is found
(second conjunct), otherwise the request-id header's value (third
conjunct), otherwise a freshly generated identifier (fourth conjunct);
and in particular both spellings of the concrete example return
`"abc"` (last two conjuncts). -/
theorem extractCorrelationId_spec (rnd : Nat → Nat) (k v : String) (headers : Headers) :
    (jsToLower k = "x-correlation-id" → ¬ v = "" →
      extractCorrelationId rnd [(k, some v)] = v)
    ∧ (truthyLookup (normalizeHeaders headers) "x-correlation-id" = some v →
        extractCorrelationId rnd headers = v)
    ∧ (truthyLookup (normalizeHeaders headers) "x-correlation-id" = none →
        truthyLookup (normalizeHeaders headers) "x-request-id" = some v →
        extractCorrelationId rnd headers = v)
    ∧ (truthyLookup (normalizeHeaders headers) "x-correlation-id" = none →
        truthyLookup (normalizeHeaders headers) "x-request-id" = none →
        extractCorrelationId rnd headers = generateCorrelationId rnd)
    ∧ extractCorrelationId rnd [("x-correlation-id", some "abc")] = "abc"
    ∧ extractCorrelationId rnd [("X-CORRELATION-ID", some "abc")] = "abc" := by
  have hC : jsToLower CORRELATION_ID_HEADER = "x-correlation-id" := rfl
  have hR : jsToLower REQUEST_ID_HEADER = "x-request-id" := rfl
  refine ⟨?_, ?_, ?_, ?_, ?_, ?_⟩
  · intro hk hv
    unfold extractCorrelationId
    simp only [hC, hR]
    have hnorm : normalizeHeaders [(k, some v)] = [(jsToLower k, some v)] := by
      simp [normalizeHeaders, jsInsert]
    have htl : truthyLookup [("x-correlation-id", some v)] "x-correlation-id" = some v := by
      simp [truthyLookup, jsGet, hv]
    rw [hnorm, hk, htl]
  · intro h
    unfold extractCorrelationId
    simp only [hC, hR]
    rw [h]
  · intro h1 h2
    unfold extractCorrelationId
    simp only [hC, hR]
    rw [h1, h2]
  · intro h1 h2
    unfold extractCorrelationId
    simp only [hC, hR]
    rw [h1, h2]
  · rfl
  · rfl

theorem extractCorrelationId_spec_witness :
    extractCorrelationId (fun _ => 0) [("X-Correlation-Id", some "abc")] = "abc"
    ∧ extractCorrelationId (fun _ => 0) [("X-Request-ID", some "zzz")] = "zzz" := by
  constructor
  · exact (extractCorrelationId_spec (fun _ => 0) "X-Correlation-Id" "abc" []).1
      (by rfl) (by simp)
  · exact (extractCorrelationId_spec (fun _ => 0) "X-Request-ID" "zzz"
      [("X-Request-ID", some "zzz")]).2.2.1 (by rfl) (by rfl)

/-- C10: a header whose value is the empty string or `undefined` is
treated as absent — it falls through to the next lookup or to fresh
generation — and the returned identifier is never the empty string. -/
theorem extractCorrelationId_nonempty (rnd : Nat → Nat) (headers : Headers) :
    (¬ extractCorrelationId rnd headers = "")
    ∧ extractCorrelationId rnd
        [("x-correlation-id", some ""), ("x-request-id", some "def")] = "def"
    ∧ extractCorrelationId rnd [("x-correlation-id", some "")] = generateCorrelationId rnd
    ∧ extractCorrelationId rnd [("x-correlation-id", none)] = generateCorrelationId rnd := by
  have hgen : ¬ generateCorrelationId rnd = "" := by
    intro h
    have hd := congrArg (fun s => s.data.length) h
    simp only [generateCorrelationId, nanoid] at hd
    rw [List.length_map, List.length_range] at hd
    simp at hd
  have htruthy : ∀ (n : Headers) (key w : String),
      truthyLookup n key = some w → ¬ w = "" := by
    intro n key w h
    unfold truthyLookup at h
    rcases hg : jsGet n key with _ | os
    · simp only [hg] at h
      exact Option.noConfusion h
    · rcases os with _ | s
      · simp only [hg] at h
        exact Option.noConfusion h
      · simp only [hg] at h
        by_cases hs : s = ""
        · rw [if_pos hs] at h
          simp at h
        · rw [if_neg hs] at h
          simp only [Option.some.injEq] at h
          subst h
          exact hs
  refine ⟨?_, rfl, rfl, rfl⟩
  unfold extractCorrelationId
  dsimp only
  rcases h1 : truthyLookup (normalizeHeaders headers) (jsToLower CORRELATION_ID_HEADER)
    with _ | v
  · simp only [h1]
    rcases h2 : truthyLookup (normalizeHeaders headers) (jsToLower REQUEST_ID_HEADER)
      with _ | v
    · simp only [h2]
      exact hgen
    · simp only [h2]
      exact htruthy _ _ _ h2
  · simp only [h1]
    exact htruthy _ _ _ h1

/-! ## Claim theorems: the log emitter -/

/-- C5: a log call whose level's priority is strictly below the
configured threshold is a no-op: no console output, no telemetry
emission, and the result does not depend on the ambient context, the
call-site fields or the telemetry runtime at all. -/
theorem log_below_threshold_noop (cfg : Config) (rt : OtelRuntime) (amb : Ambient)
    (level : String) (msgOrData : MsgOrData) (msg : Option String) (lc : LevelConfig)
    (hlc : levelConfig level = some lc)
    (hlt : lc.priority < currentLevelPriority cfg) :
    log cfg rt amb level msgOrData msg = .ok ⟨none, none⟩ := by
  unfold log
  simp only [hlc]
  rw [if_pos hlt]

theorem log_below_threshold_noop_witness :
    log ⟨"development", "loop", "debug"⟩
      ⟨.error "exporter down", .error "boom", .error "boom"⟩
      ⟨some ⟨"t1", "s1", 1⟩, some ⟨"cid", none, none, none⟩, "1970-01-01T00:00:00.000Z"⟩
      "trace" (.str "m") none = .ok ⟨none, none⟩ :=
  log_below_threshold_noop ⟨"development", "loop", "debug"⟩
    ⟨.error "exporter down", .error "boom", .error "boom"⟩
    ⟨some ⟨"t1", "s1", 1⟩, some ⟨"cid", none, none, none⟩, "1970-01-01T00:00:00.000Z"⟩
    "trace" (.str "m") none ⟨1, colorDim, "TRACE", 0⟩ rfl (by decide)

/-- C3: for a log call at or above the threshold whose console
formatting succeeds, the call returns successfully with exactly that
console line — for every telemetry runtime `rt`, including ones whose
provider lookup, logger acquisition or emit throw.  A telemetry fault
can therefore neither suppress the console output nor surface an error
to the caller: it only changes the (swallowed) `emitToOtel` result. -/
theorem log_telemetry_fault_isolated (cfg : Config) (rt : OtelRuntime) (amb : Ambient)
    (level : String) (msgOrData : MsgOrData) (msg : Option String)
    (lc : LevelConfig) (c : String)
    (hlc : levelConfig level = some lc)
    (hth : ¬ lc.priority < currentLevelPriority cfg)
    (hfc : formatConsole cfg amb.nowIso level (logMessage msgOrData msg)
        (jsSpread (logData msgOrData) (getContext amb)) = .ok c) :
    log cfg rt amb level msgOrData msg
      = .ok ⟨some c, emitToOtel cfg rt amb level (logMessage msgOrData msg)
          (jsSpread (logData msgOrData) (getContext amb))⟩ := by
  unfold log
  simp only [hlc]
  rw [if_neg hth]
  rw [hfc]

theorem log_telemetry_fault_isolated_witness :
    log ⟨"production", "loop", "info"⟩
      ⟨.error "exporter down", .error "boom", .error "boom"⟩
      ⟨none, none, "1970-01-01T00:00:00.000Z"⟩ "info" (.str "hello") none
      = .ok ⟨some "\x7b\"time\":\"1970-01-01T00:00:00.000Z\",\"level\":\"INFO\",\"msg\":\"hello\",\"service\":\"loop\",\"env\":\"production\"\x7d",
          none⟩ :=
  (log_telemetry_fault_isolated ⟨"production", "loop", "info"⟩
      ⟨.error "exporter down", .error "boom", .error "boom"⟩
      ⟨none, none, "1970-01-01T00:00:00.000Z"⟩ "info" (.str "hello") none
      ⟨9, colorGreen, "INFO", 2⟩
      "\x7b\"time\":\"1970-01-01T00:00:00.000Z\",\"level\":\"INFO\",\"msg\":\"hello\",\"service\":\"loop\",\"env\":\"production\"\x7d"
      rfl (by decide) rfl).trans rfl

/-! ### Membership and serializability helpers -/

theorem exceptPureBind {α β : Type} (a : α) (f : α → Except String β) :
    ((Except.ok a : Except String α) >>= f) = f a := rfl

theorem mem_jsInsert {α : Type u} {p : String × α} {r : JsObj α} {k : String} {v : α}
    (h : p ∈ jsInsert r k v) : p ∈ r ∨ p = (k, v) := by
  unfold jsInsert at h
  split at h
  · rcases List.mem_map.mp h with ⟨q, hq, hqe⟩
    by_cases hqk : q.1 = k
    · right
      rw [← hqe, if_pos hqk]
    · left
      rw [← hqe, if_neg hqk]
      exact hq
  · rcases List.mem_append.mp h with h | h
    · left; exact h
    · right; simpa using h

theorem mem_jsSpread {α : Type u} {p : String × α} {a b : JsObj α}
    (h : p ∈ jsSpread a b) : p ∈ a ∨ p ∈ b := by
  induction b generalizing a with
  | nil => left; simpa [jsSpread] using h
  | cons q b ih =>
    rw [show jsSpread a (q :: b) = jsSpread (jsInsert a q.1 q.2) b by simp [jsSpread]] at h
    rcases ih h with h' | h'
    · rcases mem_jsInsert h' with h'' | h''
      · left; exact h''
      · right
        rw [h'', Prod.mk.eta]
        exact List.mem_cons_self q b
    · right; exact List.mem_cons_of_mem _ h'

theorem serializableFields_of_forall (l : List (String × JValue))
    (h : ∀ p ∈ l, p.2.serializable = true) : serializableFields l = true := by
  induction l with
  | nil => rfl
  | cons p rest ih =>
    rcases p with ⟨k, v⟩
    simp only [serializableFields, Bool.and_eq_true]
    exact ⟨h (k, v) (by simp), ih (fun q hq => h q (List.mem_cons_of_mem _ hq))⟩

theorem mapM_ok_of_forall {α β : Type} (l : List α) (f : α → Except String β)
    (h : ∀ x ∈ l, ∃ y, f x = .ok y) : ∃ ys, l.mapM f = .ok ys := by
  induction l with
  | nil => exact ⟨[], rfl⟩
  | cons x rest ih =>
    obtain ⟨y, hy⟩ := h x (by simp)
    obtain ⟨ys, hys⟩ := ih (fun z hz => h z (List.mem_cons_of_mem _ hz))
    refine ⟨y :: ys, ?_⟩
    rw [List.mapM_cons, hy, exceptPureBind, hys, exceptPureBind]
    rfl

theorem isoTimePart_ok (ts : String) (h : 2 ≤ (jsSplitT ts).length) :
    ∃ t, isoTimePart ts = .ok t := by
  unfold isoTimePart
  rcases hg : (jsSplitT ts).get? 1 with _ | t
  · rw [List.get?_eq_none] at hg
    omega
  · exact ⟨t.dropRight 1, rfl⟩

/-- C4 counterexample: the claim that console formatting never throws is
false — a log call whose structured fields hold a BigInt aborts with the
`JSON.stringify` `TypeError`, which reaches the caller of the log call
(no coercion to a string is performed). -/
theorem formatConsole_bigint_throws :
    log ⟨"production", "loop", "info"⟩ ⟨.ok "LoggerProvider", .ok (), .ok ()⟩
      ⟨none, none, "1970-01-01T00:00:00.000Z"⟩ "info"
      (.obj [("big", .vbig 1)]) (some "m")
      = .error "TypeError: Do not know how to serialize a BigInt" := rfl

/-- C4 amended: console formatting never throws for serializable field
values — in production JSON mode and in pretty mode alike (for pretty
mode, under the always-true runtime invariant that the `toISOString`
timestamp contains a `'T'`).  A non-serializable field value instead
aborts the call with the serialization error, as the counterexample
shows; no coercion to a safe string exists in the code. -/
theorem formatConsole_ok_of_serializable (cfg : Config) (nowIso level message : String)
    (data : JsObj JValue)
    (hser : ∀ p ∈ data, p.2.serializable = true)
    (hiso : 2 ≤ (jsSplitT nowIso).length) :
    ∃ s, formatConsole cfg nowIso level message data = .ok s := by
  unfold formatConsole
  dsimp only
  by_cases hprod : cfg.NODE_ENV = "production"
  · rw [if_pos hprod]
    apply jsonStringify_ok_of_serializable
    simp only [JValue.serializable]
    apply serializableFields_of_forall
    intro p hp
    rcases mem_jsSpread hp with h | h
    · simp only [List.mem_cons, List.not_mem_nil, or_false] at h
      rcases h with h | h | h | h | h <;> rw [h] <;> rfl
    · exact hser p h
  · rw [if_neg hprod]
    obtain ⟨t, ht⟩ := isoTimePart_ok nowIso hiso
    rw [ht, exceptPureBind]
    by_cases hlen : (data.filter (fun p => !(p.2.isUndef))).length > 0
    · rw [if_pos hlen]
      obtain ⟨lines, hlines⟩ := mapM_ok_of_forall (data.filter (fun p => !(p.2.isUndef)))
        (fun p => (jsonStringify p.2).map (fun s =>
          "    " ++ colorMagenta ++ p.1 ++ colorReset ++ ": " ++ s))
        (by
          intro p hp
          obtain ⟨s, hs⟩ := jsonStringify_ok_of_serializable p.2
            (hser p (List.mem_of_mem_filter hp))
          refine ⟨"    " ++ colorMagenta ++ p.1 ++ colorReset ++ ": " ++ s, ?_⟩
          dsimp only
          rw [hs]
          rfl)
      rw [hlines, exceptPureBind, exceptPureBind]
      exact ⟨_, rfl⟩
    · rw [if_neg hlen, exceptPureBind]
      exact ⟨_, rfl⟩

theorem formatConsole_ok_of_serializable_witness :
    ∃ s, formatConsole ⟨"development", "loop", "debug"⟩ "1970-01-01T00:00:00.000Z"
      "info" "hello" [("a", .vstr "x"), ("u", .vundef)] = .ok s :=
  formatConsole_ok_of_serializable ⟨"development", "loop", "debug"⟩
    "1970-01-01T00:00:00.000Z" "info" "hello" [("a", .vstr "x"), ("u", .vundef)]
    (by intro p hp
        simp only [List.mem_cons, List.not_mem_nil, or_false] at hp
        rcases hp with h | h <;> rw [h] <;> rfl)
    (by decide)

/-! ### Context, emission and log extraction lemmas -/

theorem option_orElse_none {α : Type u} (x : Option α) :
    (x.orElse (fun _ => none)) = x := by
  cases x <;> rfl

theorem getContext_wf (amb : Ambient) : JsObj.WF (getContext amb) := by
  unfold getContext
  rcases amb.activeSpan with _ | span <;> rcases amb.correlationCtx with _ | c <;>
    dsimp only <;>
    repeat' split
  all_goals repeat (first | exact JsObj.WF.nil | apply JsObj.WF.insert)

theorem getContext_correlation_id (amb : Ambient) :
    jsGet (getContext amb) "correlation_id"
      = amb.correlationCtx.map (fun c => JValue.vstr c.correlationId) := by
  unfold getContext
  rcases amb.activeSpan with _ | span <;> rcases amb.correlationCtx with _ | c <;>
    dsimp only <;>
    repeat' split
  all_goals simp [jsGet_jsInsert, jsGet_nil]

theorem getContext_other_keys (amb : Ambient) (k : String)
    (h1 : ¬ k = "trace_id") (h2 : ¬ k = "span_id") (h3 : ¬ k = "correlation_id")
    (h4 : ¬ k = "merchant_id") (h5 : ¬ k = "order_id") (h6 : ¬ k = "workflow_id") :
    jsGet (getContext amb) k = none := by
  unfold getContext
  rcases amb.activeSpan with _ | span <;> rcases amb.correlationCtx with _ | c <;>
    dsimp only <;>
    repeat' split
  all_goals simp [jsGet_jsInsert, jsGet_nil, h1, h2, h3, h4, h5, h6]

/-- Whatever the runtime did, a record it accepted carries the enriched
fields spread over the `service`/`env` base attributes, the severity
row of the level (default INFO), the message as body and the active
span linkage. -/
theorem emitToOtel_emitted (cfg : Config) (rt : OtelRuntime) (amb : Ambient)
    (level message : String) (attributes : JsObj JValue) (e : OtelEmission)
    (h : emitToOtel cfg rt amb level message attributes = some e) :
    e = { severityNumber := (((levelConfig level).map (fun c => c.severity)).getD 9)
          severityText := (((levelConfig level).map (fun c => c.label)).getD "INFO")
          body := message
          attributes := jsSpread (baseBindings cfg) attributes
          spanCtx := amb.activeSpan } := by
  unfold emitToOtel emitToOtelCore at h
  rcases hgp : rt.getLoggerProvider with e1 | name
  · simp only [hgp] at h
    exact Option.noConfusion h
  · simp only [hgp] at h
    by_cases hproxy : name = "ProxyLoggerProvider"
    · rw [if_pos hproxy] at h
      exact Option.noConfusion h
    · rw [if_neg hproxy] at h
      rcases hgl : rt.getLogger with e2 | u
      · simp only [hgl] at h
        exact Option.noConfusion h
      · simp only [hgl] at h
        rcases hemit : rt.emit with e3 | u'
        · simp only [hemit] at h
          exact Option.noConfusion h
        · simp only [hemit] at h
          exact (Option.some_injective _ h).symm

theorem baseBindings_wf (cfg : Config) : JsObj.WF (baseBindings cfg) := by
  simp [JsObj.WF, baseBindings]

/-- A successful `log` call either was filtered out, or printed the
formatted console line and handed the enriched data to the telemetry
sink. -/
theorem log_ok_parts (cfg : Config) (rt : OtelRuntime) (amb : Ambient) (level : String)
    (msgOrData : MsgOrData) (msg : Option String) (ef : LogEffects)
    (h : log cfg rt amb level msgOrData msg = .ok ef) :
    ef = ⟨none, none⟩
    ∨ ∃ c, formatConsole cfg amb.nowIso level (logMessage msgOrData msg)
          (jsSpread (logData msgOrData) (getContext amb)) = .ok c
        ∧ ef = ⟨some c, emitToOtel cfg rt amb level (logMessage msgOrData msg)
            (jsSpread (logData msgOrData) (getContext amb))⟩ := by
  unfold log at h
  rcases hl : levelConfig level with _ | lc
  · simp only [hl] at h
    left
    injection h with h
    exact h.symm
  · simp only [hl] at h
    by_cases hth : lc.priority < currentLevelPriority cfg
    · rw [if_pos hth] at h
      left
      injection h with h
      exact h.symm
    · rw [if_neg hth] at h
      rcases hfc : formatConsole cfg amb.nowIso level (logMessage msgOrData msg)
          (jsSpread (logData msgOrData) (getContext amb)) with er | c
      · rw [hfc] at h
        exact Except.noConfusion h
      · rw [hfc] at h
        right
        refine ⟨c, rfl, ?_⟩
        injection h with h
        exact h.symm

/-- C1 counterexample: with an ambient correlation record `"ambient"`
active, a call-site field `correlation_id: "call"` does NOT win — the
emitted record (console line and telemetry attributes alike) carries
`correlation_id: "ambient"`, because `log` computes
`\x7b ...data, ...context \x7d` with the context spread last. -/
theorem field_precedence_counterexample :
    Logger.boundLog ⟨"production", "loop", "info"⟩ ⟨.ok "LoggerProvider", .ok (), .ok ()⟩
        ⟨none, some ⟨"ambient", none, none, none⟩, "1970-01-01T00:00:00.000Z"⟩
        (logger ⟨"production", "loop", "info"⟩) "info"
        (.obj [("correlation_id", .vstr "call")]) (some "m")
      = .ok ⟨some "\x7b\"time\":\"1970-01-01T00:00:00.000Z\",\"level\":\"INFO\",\"msg\":\"m\",\"service\":\"loop\",\"env\":\"production\",\"correlation_id\":\"ambient\"\x7d",
          some ⟨9, "INFO", "m",
            [("service", .vstr "loop"), ("env", .vstr "production"),
             ("correlation_id", .vstr "ambient")], none⟩⟩
    ∧ ¬ (jsGet [("service", JValue.vstr "loop"), ("env", JValue.vstr "production"),
          ("correlation_id", JValue.vstr "ambient")] "correlation_id"
        = some (JValue.vstr "call")) := by
  constructor
  · rfl
  · rw [show jsGet [("service", JValue.vstr "loop"), ("env", JValue.vstr "production"),
        ("correlation_id", JValue.vstr "ambient")] "correlation_id"
      = some (JValue.vstr "ambient") from rfl]
    intro h
    injection h with h
    injection h with h
    exact absurd h (by decide)

/-- C1 amended: for every log call through a child handle of the base
logger, the emitted telemetry record's attribute for any key `k`
follows the precedence: context-derived field first, then call-site
field, then bound child field, then base field.  Call-site fields still
win over bound fields, and bound over base, but an ambient
context-derived field overwrites same-key call-site and bound fields,
the reverse of the claimed direction for that link. -/
theorem field_precedence (cfg : Config) (rt : OtelRuntime) (amb : Ambient)
    (b d : JsObj JValue) (msg level : String) (ef : LogEffects) (e : OtelEmission)
    (k : String) (hb : JsObj.WF b) (hd : JsObj.WF d)
    (hlog : Logger.boundLog cfg rt amb ((logger cfg).child b) level (.obj d) (some msg)
      = .ok ef)
    (hotel : ef.otel = some e) :
    jsGet e.attributes k
      = (jsGet (getContext amb) k).orElse (fun _ =>
          (jsGet d k).orElse (fun _ =>
            (jsGet b k).orElse (fun _ => jsGet (baseBindings cfg) k))) := by
  unfold Logger.boundLog at hlog
  rcases log_ok_parts _ _ _ _ _ _ _ hlog with hef | ⟨c, hfc, hef⟩
  · rw [hef] at hotel
    exact absurd hotel (by simp)
  · rw [hef] at hotel
    dsimp only at hotel
    have he := emitToOtel_emitted _ _ _ _ _ _ _ hotel
    have hbase0 : jsSpread ([] : JsObj JValue) (baseBindings cfg) = baseBindings cfg :=
      jsSpread_nil_of_wf _ (baseBindings_wf cfg)
    have hLb : ((logger cfg).child b).bindings
        = jsSpread (baseBindings cfg) b := by
      show jsSpread (jsSpread [] (baseBindings cfg)) b = _
      rw [hbase0]
    have hLbwf : JsObj.WF (jsSpread (baseBindings cfg) b) :=
      (baseBindings_wf cfg).spread b
    have hLb0 : jsSpread ([] : JsObj JValue) (jsSpread (baseBindings cfg) b)
        = jsSpread (baseBindings cfg) b := jsSpread_nil_of_wf _ hLbwf
    have hdata : logData (.obj (jsSpread (jsSpread [] ((logger cfg).child b).bindings) d))
        = jsSpread (jsSpread (baseBindings cfg) b) d := by
      dsimp only [logData]
      rw [hLb, hLb0]
    rw [he]
    dsimp only
    rw [hdata]
    have hdatawf : JsObj.WF (jsSpread (jsSpread (baseBindings cfg) b) d) :=
      hLbwf.spread d
    have henrwf : JsObj.WF (jsSpread (jsSpread (jsSpread (baseBindings cfg) b) d)
        (getContext amb)) := hdatawf.spread _
    rw [jsGet_jsSpread _ _ henrwf k, jsGet_jsSpread _ _ (getContext_wf amb) k,
      jsGet_jsSpread _ _ hd k, jsGet_jsSpread _ _ hb k]
    cases jsGet (getContext amb) k <;> cases jsGet d k <;> cases jsGet b k <;>
      cases jsGet (baseBindings cfg) k <;> rfl

theorem field_precedence_witness :
    jsGet (OtelEmission.attributes ⟨9, "INFO", "m",
        [("service", .vstr "loop"), ("env", .vstr "production"), ("team", .vstr "pay"),
         ("amount", .vnum 5), ("correlation_id", .vstr "cid")], none⟩) "correlation_id"
      = some (JValue.vstr "cid") :=
  (field_precedence ⟨"production", "loop", "info"⟩ ⟨.ok "LoggerProvider", .ok (), .ok ()⟩
    ⟨none, some ⟨"cid", none, none, none⟩, "1970-01-01T00:00:00.000Z"⟩
    [("team", .vstr "pay")] [("amount", .vnum 5)] "m" "info"
    ⟨some "\x7b\"time\":\"1970-01-01T00:00:00.000Z\",\"level\":\"INFO\",\"msg\":\"m\",\"service\":\"loop\",\"env\":\"production\",\"team\":\"pay\",\"amount\":5,\"correlation_id\":\"cid\"\x7d",
      some ⟨9, "INFO", "m",
        [("service", .vstr "loop"), ("env", .vstr "production"), ("team", .vstr "pay"),
         ("amount", .vnum 5), ("correlation_id", .vstr "cid")], none⟩⟩
    ⟨9, "INFO", "m",
      [("service", .vstr "loop"), ("env", .vstr "production"), ("team", .vstr "pay"),
       ("amount", .vnum 5), ("correlation_id", .vstr "cid")], none⟩
    "correlation_id" (by simp [JsObj.WF]) (by simp [JsObj.WF]) rfl rfl).trans rfl

theorem jsGet_eq_none_of_not_has {α : Type u} (r : JsObj α) (k : String)
    (h : jsHas r k = false) : jsGet r k = none := by
  have hh := jsHas_eq_isSome_jsGet r k
  rw [h] at hh
  cases hg : jsGet r k
  · rfl
  · rw [hg] at hh
    simp at hh

/-- C6 counterexample: with NO correlation record active, a log call
through the base logger whose call-site fields contain a
`correlation_id` key still emits a record carrying `correlation_id`, so
"`correlation_id` is present exactly when a CorrelationRecord is
active" fails in the right-to-left direction for caller-supplied
fields. -/
theorem emitted_record_invariant_counterexample :
    Logger.boundLog ⟨"production", "loop", "info"⟩ ⟨.ok "LoggerProvider", .ok (), .ok ()⟩
        ⟨none, none, "1970-01-01T00:00:00.000Z"⟩ (logger ⟨"production", "loop", "info"⟩)
        "info" (.obj [("correlation_id", .vstr "x")]) (some "m")
      = .ok ⟨some "\x7b\"time\":\"1970-01-01T00:00:00.000Z\",\"level\":\"INFO\",\"msg\":\"m\",\"service\":\"loop\",\"env\":\"production\",\"correlation_id\":\"x\"\x7d",
          some ⟨9, "INFO", "m",
            [("service", .vstr "loop"), ("env", .vstr "production"),
             ("correlation_id", .vstr "x")], none⟩⟩
    ∧ (jsGet [("service", JValue.vstr "loop"), ("env", JValue.vstr "production"),
        ("correlation_id", JValue.vstr "x")] "correlation_id").isSome = true
    ∧ (Ambient.correlationCtx ⟨none, none, "1970-01-01T00:00:00.000Z"⟩).isSome = false :=
  ⟨rfl, rfl, rfl⟩

/-- C6 amended: every telemetry record emitted through a logger handle
carries the `service` and `env` fields; and — provided neither the
handle's bindings nor the call-site fields themselves supply a
`correlation_id` key — `correlation_id` is present in the emitted
record exactly when a CorrelationRecord is active at emission time,
and absent otherwise (no placeholder). -/
theorem emitted_record_invariant (cfg : Config) (rt : OtelRuntime) (amb : Ambient)
    (L : Logger) (level : String) (msgOrData : MsgOrData) (msg : Option String)
    (ef : LogEffects) (e : OtelEmission)
    (hwf : JsObj.WF L.bindings)
    (hbind : jsHas L.bindings "correlation_id" = false)
    (hmod : match msgOrData with
      | .obj d => JsObj.WF d ∧ jsHas d "correlation_id" = false
      | .str _ => True)
    (hlog : Logger.boundLog cfg rt amb L level msgOrData msg = .ok ef)
    (hotel : ef.otel = some e) :
    jsHas e.attributes "service" = true
    ∧ jsHas e.attributes "env" = true
    ∧ ((jsGet e.attributes "correlation_id").isSome ↔ amb.correlationCtx.isSome) := by
  have hLb0 : jsSpread ([] : JsObj JValue) L.bindings = L.bindings :=
    jsSpread_nil_of_wf _ hwf
  -- the call-site data object handed to `log`, and the fact that it has
  -- no correlation_id entry
  have hmain : ∀ dataArg : JsObj JValue, JsObj.WF dataArg →
      jsGet dataArg "correlation_id" = none →
      emitToOtel cfg rt amb level (logMessage msgOrData msg)
        (jsSpread dataArg (getContext amb)) = some e →
      jsHas e.attributes "service" = true
      ∧ jsHas e.attributes "env" = true
      ∧ ((jsGet e.attributes "correlation_id").isSome ↔ amb.correlationCtx.isSome) := by
    intro dataArg hdwf hdnone hemit
    have he := emitToOtel_emitted _ _ _ _ _ _ _ hemit
    rw [he]
    dsimp only
    refine ⟨?_, ?_, ?_⟩
    · rw [jsHas_jsSpread]
      simp [jsHas, baseBindings]
    · rw [jsHas_jsSpread]
      simp [jsHas, baseBindings]
    · rw [jsGet_jsSpread _ _ (hdwf.spread _) "correlation_id",
        jsGet_jsSpread _ _ (getContext_wf amb) "correlation_id",
        getContext_correlation_id, hdnone]
      have hbasenone : jsGet (baseBindings cfg) "correlation_id" = none := by
        simp [jsGet, baseBindings]
      rw [hbasenone]
      cases amb.correlationCtx <;> simp
  rcases msgOrData with m | d
  · unfold Logger.boundLog at hlog
    rcases log_ok_parts _ _ _ _ _ _ _ hlog with hef | ⟨c, hfc, hef⟩
    · rw [hef] at hotel
      exact absurd hotel (by simp)
    · rw [hef] at hotel
      dsimp only at hotel
      refine hmain _ (JsObj.WF.nil.spread _) ?_ hotel
      rw [hLb0]
      exact jsGet_eq_none_of_not_has _ _ hbind
  · obtain ⟨hdwf, hdhas⟩ := hmod
    unfold Logger.boundLog at hlog
    rcases log_ok_parts _ _ _ _ _ _ _ hlog with hef | ⟨c, hfc, hef⟩
    · rw [hef] at hotel
      exact absurd hotel (by simp)
    · rw [hef] at hotel
      dsimp only at hotel
      refine hmain _ ((JsObj.WF.nil.spread _).spread _) ?_ hotel
      dsimp only [logData]
      rw [hLb0, jsGet_jsSpread _ _ hdwf, jsGet_eq_none_of_not_has _ _ hdhas,
        jsGet_eq_none_of_not_has _ _ hbind]
      rfl

theorem emitted_record_invariant_witness :
    jsHas [("service", JValue.vstr "loop"), ("env", JValue.vstr "production"),
        ("correlation_id", JValue.vstr "cid")] "service" = true
    ∧ jsHas [("service", JValue.vstr "loop"), ("env", JValue.vstr "production"),
        ("correlation_id", JValue.vstr "cid")] "env" = true
    ∧ ((jsGet [("service", JValue.vstr "loop"), ("env", JValue.vstr "production"),
        ("correlation_id", JValue.vstr "cid")] "correlation_id").isSome
      ↔ (some (⟨"cid", none, none, none⟩ : CorrelationContext)).isSome) :=
  emitted_record_invariant ⟨"production", "loop", "info"⟩ ⟨.ok "LoggerProvider", .ok (), .ok ()⟩
    ⟨none, some ⟨"cid", none, none, none⟩, "1970-01-01T00:00:00.000Z"⟩
    (logger ⟨"production", "loop", "info"⟩) "info" (.str "hi") none
    ⟨some "\x7b\"time\":\"1970-01-01T00:00:00.000Z\",\"level\":\"INFO\",\"msg\":\"hi\",\"service\":\"loop\",\"env\":\"production\",\"correlation_id\":\"cid\"\x7d",
      some ⟨9, "INFO", "hi",
        [("service", .vstr "loop"), ("env", .vstr "production"),
         ("correlation_id", .vstr "cid")], none⟩⟩
    ⟨9, "INFO", "hi",
      [("service", .vstr "loop"), ("env", .vstr "production"),
       ("correlation_id", .vstr "cid")], none⟩
    (baseBindings_wf _) rfl trivial rfl rfl

/-- C8: `child` is purely derivational.  First conjunct: the bindings of
`L.child(b1)` are exactly `b1` overlaid on `L`'s bindings — `L`'s own
`bindings` value is untouched (handles hold bindings captured by value,
so there is no shared mutable state).  Second conjunct: a record emitted
through `L.child(\x7b a: 1 \x7d).child(\x7b b: 2 \x7d)` carries both `a: 1`
and `b: 2`.  Third conjunct: records emitted through `L` itself carry
neither key (when `L`'s own bindings do not mention them), also after
the children were derived. -/
theorem child_spec (cfg : Config) (rt : OtelRuntime) (amb : Ambient) (L : Logger)
    (b1 : JsObj JValue) (msg : String) (k : String)
    (hL : JsObj.WF L.bindings) (hb1 : JsObj.WF b1) :
    (jsGet (L.child b1).bindings k
      = (jsGet b1 k).orElse (fun _ => jsGet L.bindings k))
    ∧ (∀ ef e, Logger.boundLog cfg rt amb ((L.child [("a", .vnum 1)]).child [("b", .vnum 2)])
          "info" (.str msg) none = .ok ef → ef.otel = some e →
        jsGet e.attributes "a" = some (.vnum 1) ∧ jsGet e.attributes "b" = some (.vnum 2))
    ∧ (∀ ef e, jsHas L.bindings "a" = false → jsHas L.bindings "b" = false →
        Logger.boundLog cfg rt amb L "info" (.str msg) none = .ok ef → ef.otel = some e →
        jsGet e.attributes "a" = none ∧ jsGet e.attributes "b" = none) := by
  have hL0 : jsSpread ([] : JsObj JValue) L.bindings = L.bindings :=
    jsSpread_nil_of_wf _ hL
  have hextract : ∀ (dataArg : JsObj JValue) (ef : LogEffects) (e : OtelEmission),
      JsObj.WF dataArg →
      log cfg rt amb "info" (.obj dataArg) (some msg) = .ok ef → ef.otel = some e →
      ∀ key, ¬ key = "trace_id" → ¬ key = "span_id" → ¬ key = "correlation_id" →
        ¬ key = "merchant_id" → ¬ key = "order_id" → ¬ key = "workflow_id" →
        ¬ key = "service" → ¬ key = "env" →
        jsGet e.attributes key = jsGet dataArg key := by
    intro dataArg ef e hdwf hlog hotel key k1 k2 k3 k4 k5 k6 k7 k8
    rcases log_ok_parts _ _ _ _ _ _ _ hlog with hef | ⟨c, hfc, hef⟩
    · rw [hef] at hotel
      exact absurd hotel (by simp)
    · rw [hef] at hotel
      dsimp only at hotel
      have he := emitToOtel_emitted _ _ _ _ _ _ _ hotel
      rw [he]
      dsimp only [logData]
      rw [jsGet_jsSpread _ _ (hdwf.spread _) key,
        jsGet_jsSpread _ _ (getContext_wf amb) key,
        getContext_other_keys amb key k1 k2 k3 k4 k5 k6]
      have hbasenone : jsGet (baseBindings cfg) key = none := by
        unfold baseBindings jsGet
        have h7 : (decide ("service" = key)) = false := by
          simp; exact fun hc => k7 hc.symm
        have h8 : (decide ("env" = key)) = false := by
          simp; exact fun hc => k8 hc.symm
        simp [List.find?_cons, h7, h8]
      rw [hbasenone]
      cases jsGet dataArg key <;> rfl
  refine ⟨?_, ?_, ?_⟩
  · show jsGet (jsSpread (jsSpread [] L.bindings) b1) k = _
    rw [hL0, jsGet_jsSpread _ _ hb1 k]
  · intro ef e hlog hotel
    have hA : (L.child [("a", .vnum 1)]).bindings
        = jsSpread L.bindings [("a", .vnum 1)] := by
      show jsSpread (jsSpread [] L.bindings) _ = _
      rw [hL0]
    have hAwf : JsObj.WF (jsSpread L.bindings [("a", .vnum 1)]) :=
      hL.spread _
    have hCC : ((L.child [("a", .vnum 1)]).child [("b", .vnum 2)]).bindings
        = jsSpread (jsSpread L.bindings [("a", .vnum 1)]) [("b", .vnum 2)] := by
      show jsSpread (jsSpread [] (L.child [("a", .vnum 1)]).bindings) _ = _
      rw [hA, jsSpread_nil_of_wf _ hAwf]
    have hCCwf : JsObj.WF (jsSpread (jsSpread L.bindings [("a", .vnum 1)]) [("b", .vnum 2)]) :=
      hAwf.spread _
    unfold Logger.boundLog at hlog
    rw [hCC, jsSpread_nil_of_wf _ hCCwf] at hlog
    have hget := hextract _ _ _ hCCwf hlog hotel
    constructor
    · rw [hget "a" (by decide) (by decide) (by decide) (by decide) (by decide) (by decide)
        (by decide) (by decide)]
      rw [jsGet_jsSpread _ _ (by simp [JsObj.WF]) "a",
        jsGet_jsSpread _ _ (by simp [JsObj.WF]) "a"]
      simp [jsGet]
    · rw [hget "b" (by decide) (by decide) (by decide) (by decide) (by decide) (by decide)
        (by decide) (by decide)]
      rw [jsGet_jsSpread _ _ (by simp [JsObj.WF]) "b"]
      simp [jsGet]
  · intro ef e ha hb hlog hotel
    unfold Logger.boundLog at hlog
    rw [hL0] at hlog
    have hget := hextract _ _ _ hL hlog hotel
    constructor
    · rw [hget "a" (by decide) (by decide) (by decide) (by decide) (by decide) (by decide)
        (by decide) (by decide)]
      exact jsGet_eq_none_of_not_has _ _ ha
    · rw [hget "b" (by decide) (by decide) (by decide) (by decide) (by decide) (by decide)
        (by decide) (by decide)]
      exact jsGet_eq_none_of_not_has _ _ hb

theorem child_spec_witness :
    jsGet [("service", JValue.vstr "loop"), ("env", JValue.vstr "production"),
        ("a", JValue.vnum 1), ("b", JValue.vnum 2)] "a" = some (JValue.vnum 1)
    ∧ jsGet [("service", JValue.vstr "loop"), ("env", JValue.vstr "production"),
        ("a", JValue.vnum 1), ("b", JValue.vnum 2)] "b" = some (JValue.vnum 2) :=
  (child_spec ⟨"production", "loop", "info"⟩ ⟨.ok "LoggerProvider", .ok (), .ok ()⟩
      ⟨none, none, "1970-01-01T00:00:00.000Z"⟩ (logger ⟨"production", "loop", "info"⟩)
      [] "hi" "x" (baseBindings_wf _) (by simp [JsObj.WF])).2.1
    ⟨some "\x7b\"time\":\"1970-01-01T00:00:00.000Z\",\"level\":\"INFO\",\"msg\":\"hi\",\"service\":\"loop\",\"env\":\"production\",\"a\":1,\"b\":2\x7d",
      some ⟨9, "INFO", "hi",
        [("service", .vstr "loop"), ("env", .vstr "production"),
         ("a", .vnum 1), ("b", .vnum 2)], none⟩⟩
    ⟨9, "INFO", "hi",
      [("service", .vstr "loop"), ("env", .vstr "production"),
       ("a", .vnum 1), ("b", .vnum 2)], none⟩
    rfl rfl
